import Mathlib

/-!
Shallow embedding of the Meteor methods declared in
src/interface/imports/api/sentences.js of the ali repository.

Modelling conventions.
JS numbers are modelled as Int (the methods only compare them, take a
maximum and add 1); JS strings as String.  The Mongo collection
Sentences is a List SDoc; Meteor.users is an association list from
user id to username.  Each Meteor method becomes a Lean function that
takes the method context (this.userId, an Option String), the current
collection and the method arguments, and returns
Except MErr (List SDoc): a thrown JS exception is Except.error, and it
aborts the method before any database write, exactly as in Meteor where
check and Meteor.Error throw before the collection call is reached.
Arguments whose runtime type the source does not constrain are passed
as JsVal, a model of the JavaScript values the methods inspect.
-/

/-- A JavaScript value, as far as the methods of sentences.js inspect one. -/
inductive JsVal where
  | num (n : Int)
  | str (s : String)
  | boolv (b : Bool)
  | nullv
  | undef
  | arr (elems : List JsVal)
  | obj (fields : List (String × JsVal))

/-- The value object of a point annotation, as required by the check
pattern in checkSentence: an object with exactly the numeric fields
begin and end.  The source field names begin and end are rendered as
beginv and endv because end is a Lean keyword. -/
structure AnnVal where
  beginv : Int
  endv : Int
deriving DecidableEq

/-- A point annotation: an object with exactly the fields type (String)
and value (an AnnVal), as required by checkSentence. -/
structure Ann where
  type : String
  value : AnnVal
deriving DecidableEq

/-- A span annotation: an object with exactly the fields type (String),
begin and end (Numbers), as required by checkSentence.  begin and end
are rendered as beginv and endv (end is a Lean keyword). -/
structure SpanAnn where
  type : String
  beginv : Int
  endv : Int
deriving DecidableEq

/-- A document of the sentences collection.  The four fields of the
checked client input plus the four fields stamped by sentences.insert,
plus the Mongo primary key _id.  readableId is Option Int so that the
model can also speak about hypothetical documents lacking the field,
which the lookup in sentences.insert treats as falsy. -/
structure SDoc where
  _id : String
  sentence : String
  annotations : List Ann
  spanAnnotations : List SpanAnn
  zScore : Int
  readableId : Option Int
  createdAt : Int
  owner : String
  username : String
deriving DecidableEq

/-- Errors a method body can throw.  matchError models a failed
check(...) (Match.Error); notAuthorized models
Meteor.Error("not-authorized"); referenceError models a JS
ReferenceError from reading an undeclared identifier; typeError models
a JS TypeError such as reading .username of undefined. -/
inductive MErr where
  | notAuthorized
  | matchError
  | referenceError
  | typeError
deriving DecidableEq

/-- Property lookup on a modelled JS object: the value stored under key
k, none when the key is absent. -/
def jlookup (fs : List (String × JsVal)) (k : String) : Option JsVal :=
  (fs.find? (fun kv => kv.1 == k)).map Prod.snd

/-- check(v, String): the value must be a primitive string. -/
def asStr : JsVal → Option String
  | JsVal.str s => some s
  | _ => none

/-- check(v, Number): the value must be a primitive number. -/
def asNum : JsVal → Option Int
  | JsVal.num n => some n
  | _ => none

/-- The pattern under the value key of an annotations element in
checkSentence: an object with exactly the keys begin and end, both
Numbers. -/
def parseAnnVal : JsVal → Option AnnVal
  | JsVal.obj fs =>
    match jlookup fs "begin", jlookup fs "end" with
    | some (JsVal.num b), some (JsVal.num e) =>
      if fs.all (fun kv => kv.1 == "begin" || kv.1 == "end") then some ⟨b, e⟩ else none
    | _, _ => none
  | _ => none

/-- An element of the annotations array in checkSentence: an object
with exactly the keys type (String) and value (the AnnVal pattern). -/
def parseAnn1 : JsVal → Option Ann
  | JsVal.obj fs =>
    match jlookup fs "type", (jlookup fs "value").bind parseAnnVal with
    | some (JsVal.str t), some v =>
      if fs.all (fun kv => kv.1 == "type" || kv.1 == "value") then some ⟨t, v⟩ else none
    | _, _ => none
  | _ => none

/-- An element of the spanAnnotations array in checkSentence: an object
with exactly the keys type (String), begin and end (Numbers). -/
def parseSpan1 : JsVal → Option SpanAnn
  | JsVal.obj fs =>
    match jlookup fs "type", jlookup fs "begin", jlookup fs "end" with
    | some (JsVal.str t), some (JsVal.num b), some (JsVal.num e) =>
      if fs.all (fun kv => kv.1 == "type" || kv.1 == "begin" || kv.1 == "end")
      then some ⟨t, b, e⟩ else none
    | _, _, _ => none
  | _ => none

/-- An array pattern [p] of check: the value must be an array and every
element must match p. -/
def parseList {α : Type} (p : JsVal → Option α) : JsVal → Option (List α)
  | JsVal.arr xs => xs.mapM p
  | _ => none

/-- The four client-supplied fields of a sentence document, i.e. the
shape demanded by checkSentence. -/
structure SentenceInput where
  sentence : String
  annotations : List Ann
  spanAnnotations : List SpanAnn
  zScore : Int
deriving DecidableEq

/-- The object pattern of checkSentence: an object with exactly the
keys sentence (String), annotations (array of the Ann pattern),
spanAnnotations (array of the SpanAnn pattern) and zScore (Number).
check with a plain object pattern also rejects extra keys, hence the
fs.all guard. -/
def parseSentence : JsVal → Option SentenceInput
  | JsVal.obj fs =>
    match (jlookup fs "sentence").bind asStr,
          (jlookup fs "annotations").bind (parseList parseAnn1),
          (jlookup fs "spanAnnotations").bind (parseList parseSpan1),
          (jlookup fs "zScore").bind asNum with
    | some s, some anns, some spans, some z =>
      if fs.all (fun kv => kv.1 == "sentence" || kv.1 == "annotations" ||
                 kv.1 == "spanAnnotations" || kv.1 == "zScore")
      then some ⟨s, anns, spans, z⟩ else none
    | _, _, _, _ => none
  | _ => none

/-- checkSentence(sentence) succeeds exactly when the argument matches
the object pattern. -/
def checkSentence (v : JsVal) : Bool :=
  (parseSentence v).isSome

/-- Meteor.users.findOne(userId).username: the username recorded for a
user id, none when no such user exists (in which case the property
read throws a TypeError). -/
def lookupUser (users : List (String × String)) (uid : String) : Option String :=
  (users.find? (fun kv => kv.1 == uid)).map Prod.snd

/-- One step of the maximum of readableId fields under the BSON sort
order used by findOne with sort readableId: -1, where a missing field
sorts below every number. -/
def maxStep : Option Int → Option Int → Option Int
  | none, r => r
  | some a, none => some a
  | some a, some r => some (max a r)

/-- The readableId of the document returned by
Sentences.findOne(empty-selector, sort readableId: -1): the maximum
readableId present in the collection (none when the collection is
empty or no document carries the field, both of which the caller
treats as falsy). -/
def maxReadable (docs : List SDoc) : Option Int :=
  docs.foldl (fun acc d => maxStep acc d.readableId) none

/-- The JS expression (lastDoc && lastDoc.readableId) || 0: undefined
(either no document, or a document without readableId) and the number
0 are falsy and yield 0; any other number is returned unchanged. -/
def jsOrZero : Option Int → Int
  | none => 0
  | some n => if n = 0 then 0 else n

/-- const currentId = (lastDoc && lastDoc.readableId) || 0 in
sentences.insert. -/
def currentId (docs : List SDoc) : Int :=
  jsOrZero (maxReadable docs)

/-- The document object literal passed to Sentences.insert: the spread
of the checked client input (exactly its four fields, since
checkSentence rejects extra keys) plus readableId, createdAt, owner and
username.  newId models the _id Mongo generates on insert; now models
new Date(). -/
def mkInsertDoc (docs : List SDoc) (uid uname : String) (now : Int) (newId : String)
    (p : SentenceInput) : SDoc :=
  { _id := newId
    sentence := p.sentence
    annotations := p.annotations
    spanAnnotations := p.spanAnnotations
    zScore := p.zScore
    readableId := some (currentId docs + 1)
    createdAt := now
    owner := uid
    username := uname }

/-- Method sentences.insert(sentence).  In source order: checkSentence
throws a Match.Error on a malformed argument; then an unauthenticated
caller (this.userId unset) gets Meteor.Error("not-authorized"); then
the currentId lookup and the insert run, where building the document
literal reads Meteor.users.findOne(this.userId).username, a TypeError
when the user record is missing. -/
def insertM (docs : List SDoc) (users : List (String × String)) (userId : Option String)
    (now : Int) (newId : String) (sentence : JsVal) : Except MErr (List SDoc) :=
  match parseSentence sentence with
  | none => Except.error MErr.matchError
  | some p =>
    match userId with
    | none => Except.error MErr.notAuthorized
    | some uid =>
      match lookupUser users uid with
      | none => Except.error MErr.typeError
      | some uname => Except.ok (docs ++ [mkInsertDoc docs uid uname now newId p])

/-- Method sentences.remove(sentenceId): Sentences.remove(sentenceId)
with a string id selector deletes the document whose _id equals the
argument (at most one, _id being the primary key; the filter form is
equivalent) and is a silent no-op when none matches.  No check and no
authentication are performed. -/
def removeM (_userId : Option String) (docs : List SDoc) (sentenceId : String) :
    Except MErr (List SDoc) :=
  Except.ok (docs.filter (fun d => !(d._id == sentenceId)))

/-- Method sentences.addAnnotation(sentenceId, type, value).  The body
reads the identifier Sentence, which is declared nowhere (the
collection is named Sentences), so every invocation throws a JS
ReferenceError before any database call; no document is ever mutated.
Even with the name repaired, the update document pushes onto fields
named type and value, not onto the annotations array. -/
def addAnnotationM (_userId : Option String) (_docs : List SDoc)
    (_sentenceId _typev _valuev : JsVal) : Except MErr (List SDoc) :=
  Except.error MErr.referenceError

/-- The selector with _id: sentenceId, for an unchecked sentenceId: a
document matches when the argument is a string equal to its _id; a
non-string argument matches no document. -/
def jsEqStr : JsVal → String → Bool
  | JsVal.str s, t => s == t
  | _, _ => false

/-- Exact Mongo equality of an unchecked JS value against a stored
annotation value object with the fields begin, end in insertion
order. -/
def annValEqJs : JsVal → AnnVal → Bool
  | JsVal.obj [("begin", JsVal.num b), ("end", JsVal.num e)], v =>
      b == v.beginv && e == v.endv
  | _, _ => false

/-- The pull condition of sentences.removeAnnotation: an annotations
element matches when its type equals the type argument and its value
equals the value argument. -/
def annPullMatch (tv vv : JsVal) (a : Ann) : Bool :=
  jsEqStr tv a.type && annValEqJs vv a.value

/-- Method sentences.removeAnnotation(sentenceId, type, value): no
check, no authentication; pulls from the annotations array of the
document selected by _id every element matching type and value. -/
def removeAnnotationM (_userId : Option String) (docs : List SDoc)
    (sentenceId typev valuev : JsVal) : Except MErr (List SDoc) :=
  Except.ok (docs.map (fun d =>
    if jsEqStr sentenceId d._id then
      { d with annotations := d.annotations.filter (fun a => !(annPullMatch typev valuev a)) }
    else d))

/-- The pull condition of sentences.removeSpanAnnotation: a
spanAnnotations element matches when its type, begin and end all equal
the given values. -/
def spanMatches (t : String) (b e : Int) (s : SpanAnn) : Bool :=
  s.type == t && s.beginv == b && s.endv == e

/-- Method sentences.addSpanAnnotation(sentenceId, type, begin, end).
In source order it runs check(sentenceId, String), check(begin,
Number), check(end, Number), check(type, String), each throwing a
Match.Error on failure before any database access; then it pushes the
span onto the spanAnnotations array of the document selected by
the string id. -/
def addSpanAnnotationM (_userId : Option String) (docs : List SDoc)
    (sentenceId typev beginv endv : JsVal) : Except MErr (List SDoc) :=
  match asStr sentenceId with
  | none => Except.error MErr.matchError
  | some sid =>
    match asNum beginv with
    | none => Except.error MErr.matchError
    | some b =>
      match asNum endv with
      | none => Except.error MErr.matchError
      | some e =>
        match asStr typev with
        | none => Except.error MErr.matchError
        | some t =>
          Except.ok (docs.map (fun d =>
            if d._id = sid then
              { d with spanAnnotations := d.spanAnnotations ++ [⟨t, b, e⟩] }
            else d))

/-- Method sentences.removeSpanAnnotation(sentenceId, type, begin, end).
Same four checks in the same order as the add method; then pulls from
the spanAnnotations array of the document selected by _id every element
whose type, begin and end all match. -/
def removeSpanAnnotationM (_userId : Option String) (docs : List SDoc)
    (sentenceId typev beginv endv : JsVal) : Except MErr (List SDoc) :=
  match asStr sentenceId with
  | none => Except.error MErr.matchError
  | some sid =>
    match asNum beginv with
    | none => Except.error MErr.matchError
    | some b =>
      match asNum endv with
      | none => Except.error MErr.matchError
      | some e =>
        match asStr typev with
        | none => Except.error MErr.matchError
        | some t =>
          Except.ok (docs.map (fun d =>
            if d._id = sid then
              { d with spanAnnotations :=
                  d.spanAnnotations.filter (fun s => !(spanMatches t b e s)) }
            else d))

/-- Observable outcome of sentences.importFromTsv: the sentences
collection afterwards, the URL of the HTTP GET, and what the body
passes to console.log. -/
structure ImportResult where
  collection : List SDoc
  requestUrl : String
  logs : List JsVal

/-- Method sentences.importFromTsv(url, filename): url is replaced by
the configured default when falsy (empty string models a falsy url);
then HTTP.call("GET", url + "/" + filename) runs with a callback that
does console.log(err, resp), parses resp with TSV.parse, and logs the
result.  The HTTP outcome is modelled by quantifying over the err and
resp values handed to the callback, and the out-of-scope TSV library
by a function parameter.  The body contains no Sentences.insert,
update or remove, so the collection is returned untouched, and the
method itself returns before the callback runs, so err is never
surfaced to the caller, only logged. -/
def importFromTsvM (_userId : Option String) (docs : List SDoc)
    (url filename defaultUrl : String) (err resp : JsVal)
    (tsvParse : JsVal → JsVal) : ImportResult :=
  { collection := docs
    requestUrl := (if url = "" then defaultUrl else url) ++ "/" ++ filename
    logs := [err, resp, tsvParse resp] }

/-- A sample document used to instantiate theorems at concrete
inputs. -/
def sampleDoc : SDoc :=
  { _id := "s1"
    sentence := "hello world"
    annotations := []
    spanAnnotations := [⟨"ner", 0, 1⟩]
    zScore := 0
    readableId := some 1
    createdAt := 0
    owner := "u1"
    username := "alice" }

/-- A well-shaped client input used to instantiate theorems at concrete
inputs. -/
def sampleSentenceJs : JsVal :=
  JsVal.obj [("sentence", JsVal.str "a cat sat"), ("annotations", JsVal.arr []),
             ("spanAnnotations", JsVal.arr []), ("zScore", JsVal.num 0)]

theorem jsOrZero_some (n : Int) : jsOrZero (some n) = n := by
  by_cases h : n = 0 <;> simp [jsOrZero, h]

theorem maxReadable_append (docs : List SDoc) (d : SDoc) :
    maxReadable (docs ++ [d]) = maxStep (maxReadable docs) d.readableId := by
  unfold maxReadable
  rw [List.foldl_append]
  rfl

theorem currentId_append (docs : List SDoc) (d : SDoc)
    (h : d.readableId = some (currentId docs + 1)) :
    currentId (docs ++ [d]) = currentId docs + 1 := by
  unfold currentId at h ⊢
  rw [maxReadable_append, h]
  cases hmr : maxReadable docs with
  | none => simp [maxStep, jsOrZero]
  | some a =>
    simp only [jsOrZero_some, maxStep]
    rw [max_eq_right (by omega : a ≤ a + 1)]

theorem foldl_maxStep_zero (docs : List SDoc) (acc : Option Int)
    (hacc : acc = none ∨ acc = some 0)
    (h : ∀ d ∈ docs, d.readableId = none ∨ d.readableId = some 0) :
    docs.foldl (fun a d => maxStep a d.readableId) acc = none ∨
    docs.foldl (fun a d => maxStep a d.readableId) acc = some 0 := by
  induction docs generalizing acc with
  | nil => simpa using hacc
  | cons d ds ih =>
    simp only [List.foldl_cons]
    apply ih
    · rcases hacc with h1 | h1 <;> rcases h d (by simp) with h2 | h2 <;>
        simp [h1, h2, maxStep]
    · intro x hx
      exact h x (by simp [hx])

theorem currentId_zero (docs : List SDoc)
    (h : ∀ d ∈ docs, d.readableId = none ∨ d.readableId = some 0) :
    currentId docs = 0 := by
  unfold currentId maxReadable
  rcases foldl_maxStep_zero docs none (Or.inl rfl) h with h1 | h1 <;>
    rw [h1] <;> simp [jsOrZero]

/-- C1: two sequential authenticated inserts give the second document a
readableId one larger than the first, and in general an insert stamps
readableId with one plus the maximum readableId present in the
collection. -/
theorem insert_assigns_successor_readableId
    (docs : List SDoc) (users : List (String × String)) (uid uname : String)
    (n1 n2 : Int) (i1 i2 : String) (s1 s2 : JsVal) (p1 p2 : SentenceInput)
    (h1 : parseSentence s1 = some p1) (h2 : parseSentence s2 = some p2)
    (hu : lookupUser users uid = some uname) :
    ∃ d1 d2 : SDoc,
      insertM docs users (some uid) n1 i1 s1 = Except.ok (docs ++ [d1]) ∧
      insertM (docs ++ [d1]) users (some uid) n2 i2 s2 = Except.ok (docs ++ [d1] ++ [d2]) ∧
      d1.readableId = some (currentId docs + 1) ∧
      (∀ r, d1.readableId = some r → d2.readableId = some (r + 1)) ∧
      (∀ m, maxReadable docs = some m → d1.readableId = some (m + 1)) := by
  refine ⟨mkInsertDoc docs uid uname n1 i1 p1,
          mkInsertDoc (docs ++ [mkInsertDoc docs uid uname n1 i1 p1]) uid uname n2 i2 p2,
          ?_, ?_, rfl, ?_, ?_⟩
  · simp [insertM, h1, hu]
  · simp [insertM, h2, hu]
  · intro r hr
    have hc : currentId (docs ++ [mkInsertDoc docs uid uname n1 i1 p1]) =
        currentId docs + 1 := currentId_append docs _ rfl
    have hr' : currentId docs + 1 = r := by
      simpa [mkInsertDoc] using hr
    show some (currentId (docs ++ [mkInsertDoc docs uid uname n1 i1 p1]) + 1) = some (r + 1)
    rw [hc, hr']
  · intro m hm
    have hcm : currentId docs = m := by
      unfold currentId
      rw [hm]
      exact jsOrZero_some m
    simp [mkInsertDoc, hcm]

/-- C1 witness: concrete instance of the sequential-insert theorem on
the singleton collection containing sampleDoc. -/
theorem insert_assigns_successor_readableId_witness :
    ∃ d1 d2 : SDoc,
      insertM [sampleDoc] [("u1", "alice")] (some "u1") 5 "i1" sampleSentenceJs =
        Except.ok ([sampleDoc] ++ [d1]) ∧
      insertM ([sampleDoc] ++ [d1]) [("u1", "alice")] (some "u1") 6 "i2" sampleSentenceJs =
        Except.ok ([sampleDoc] ++ [d1] ++ [d2]) ∧
      d1.readableId = some (currentId [sampleDoc] + 1) ∧
      (∀ r, d1.readableId = some r → d2.readableId = some (r + 1)) ∧
      (∀ m, maxReadable [sampleDoc] = some m → d1.readableId = some (m + 1)) :=
  insert_assigns_successor_readableId [sampleDoc] [("u1", "alice")] "u1" "alice"
    5 6 "i1" "i2" sampleSentenceJs sampleSentenceJs ⟨"a cat sat", [], [], 0⟩
    ⟨"a cat sat", [], [], 0⟩ (by decide) (by decide) (by decide)

/-- C9: when every document either lacks readableId or has readableId 0
(in particular when the collection is empty), an authenticated
well-shaped insert stamps readableId 1, because both falsy cases make
currentId 0. -/
theorem insert_trivial_ids_yields_one
    (docs : List SDoc) (users : List (String × String)) (uid uname : String)
    (now : Int) (newId : String) (s : JsVal) (p : SentenceInput)
    (hp : parseSentence s = some p) (hu : lookupUser users uid = some uname)
    (hz : ∀ d ∈ docs, d.readableId = none ∨ d.readableId = some 0) :
    ∃ d : SDoc,
      insertM docs users (some uid) now newId s = Except.ok (docs ++ [d]) ∧
      d.readableId = some 1 := by
  refine ⟨mkInsertDoc docs uid uname now newId p, by simp [insertM, hp, hu], ?_⟩
  have h0 : currentId docs = 0 := currentId_zero docs hz
  simp [mkInsertDoc, h0]

/-- C9 witness: concrete instance on the empty collection. -/
theorem insert_trivial_ids_yields_one_witness :
    ∃ d : SDoc,
      insertM [] [("u1", "alice")] (some "u1") 0 "i1" sampleSentenceJs =
        Except.ok ([] ++ [d]) ∧
      d.readableId = some 1 :=
  insert_trivial_ids_yields_one [] [("u1", "alice")] "u1" "alice" 0 "i1"
    sampleSentenceJs ⟨"a cat sat", [], [], 0⟩ (by decide) (by decide) (by decide)

instance {ε α : Type} [DecidableEq ε] [DecidableEq α] : DecidableEq (Except ε α) := fun x y =>
  match x, y with
  | Except.ok a, Except.ok b =>
    if h : a = b then isTrue (by rw [h]) else isFalse (fun c => h (Except.ok.inj c))
  | Except.error a, Except.error b =>
    if h : a = b then isTrue (by rw [h]) else isFalse (fun c => h (Except.error.inj c))
  | Except.ok _, Except.error _ => isFalse (fun c => Except.noConfusion c)
  | Except.error _, Except.ok _ => isFalse (fun c => Except.noConfusion c)

/-- C2 counterexample: checkSentence runs before the authentication
test, so an unauthenticated call with a malformed argument (here the
number 5) fails with the validation error, not with the authorization
error the claim promises for every input sentence. -/
theorem insert_unauthenticated_counterexample :
    insertM [] [] none 0 "i0" (JsVal.num 5) = Except.error MErr.matchError ∧
    MErr.matchError ≠ MErr.notAuthorized :=
  ⟨rfl, by decide⟩

/-- C2 amended: an unauthenticated insert always fails and never
creates a document; the failure is the authorization error when the
argument passes the shape check, and the validation error (thrown
first) when it does not. -/
theorem insert_unauthenticated_always_fails
    (docs : List SDoc) (users : List (String × String)) (now : Int)
    (newId : String) (s : JsVal) :
    insertM docs users none now newId s =
      Except.error (if checkSentence s then MErr.notAuthorized else MErr.matchError) := by
  unfold insertM checkSentence
  cases hp : parseSentence s <;> simp [hp]

/-- C3: evaluation of sentences.addAnnotation at a well-formed concrete
input.  The body reads the undeclared identifier Sentence (the
collection is Sentences), so the call throws a ReferenceError and no
document acquires the (type, value) pair; the claimed append to the
annotations array never happens. -/
theorem addAnnotation_bug_concrete :
    addAnnotationM (some "u1") [sampleDoc] (JsVal.str "s1") (JsVal.str "pos")
      (JsVal.obj [("begin", JsVal.num 0), ("end", JsVal.num 1)]) =
      Except.error MErr.referenceError :=
  rfl

theorem spanMatches_iff (t : String) (b e : Int) (s : SpanAnn) :
    spanMatches t b e s = true ↔ s = SpanAnn.mk t b e := by
  cases s with
  | mk st sb se =>
    simp [spanMatches, Bool.and_eq_true, beq_iff_eq, and_assoc, SpanAnn.mk.injEq]

theorem spanMatches_self (t : String) (b e : Int) :
    spanMatches t b e (SpanAnn.mk t b e) = true :=
  (spanMatches_iff t b e _).mpr rfl

theorem filter_not_match (t : String) (b e : Int) (l : List SpanAnn)
    (h : SpanAnn.mk t b e ∉ l) :
    l.filter (fun s => !(spanMatches t b e s)) = l := by
  apply List.filter_eq_self.mpr
  intro s hs
  cases hm : spanMatches t b e s with
  | false => rfl
  | true => exact absurd (((spanMatches_iff t b e s).mp hm) ▸ hs) h

/-- C4 counterexample: on a document whose spanAnnotations already
contains ("ner", 0, 1), adding that same triple and then removing it
pulls both copies, leaving the array empty instead of restoring the
prior singleton state. -/
theorem span_roundtrip_counterexample :
    (addSpanAnnotationM (some "u1") [sampleDoc] (JsVal.str "s1") (JsVal.str "ner")
        (JsVal.num 0) (JsVal.num 1)).bind
      (fun docs' => removeSpanAnnotationM (some "u1") docs' (JsVal.str "s1")
        (JsVal.str "ner") (JsVal.num 0) (JsVal.num 1)) ≠
    Except.ok [sampleDoc] := by
  decide

/-- C4 amended: adding and then removing the same (type, begin, end)
span annotation restores every document, provided the matched document
does not already contain an entry equal to that triple (removal pulls
all exact matches, so pre-existing duplicates would be lost too). -/
theorem span_roundtrip_fresh
    (u : Option String) (docs : List SDoc) (sid t : String) (b e : Int)
    (hfresh : ∀ d ∈ docs, d._id = sid → SpanAnn.mk t b e ∉ d.spanAnnotations) :
    (addSpanAnnotationM u docs (JsVal.str sid) (JsVal.str t) (JsVal.num b)
        (JsVal.num e)).bind
      (fun docs' => removeSpanAnnotationM u docs' (JsVal.str sid) (JsVal.str t)
        (JsVal.num b) (JsVal.num e)) = Except.ok docs := by
  show Except.ok
      ((docs.map (fun d => if d._id = sid then
          { d with spanAnnotations := d.spanAnnotations ++ [SpanAnn.mk t b e] }
        else d)).map (fun d => if d._id = sid then
          { d with spanAnnotations :=
              d.spanAnnotations.filter (fun s => !(spanMatches t b e s)) }
        else d)) = Except.ok docs
  rw [List.map_map]
  congr 1
  induction docs with
  | nil => rfl
  | cons d ds ih =>
    simp only [List.map_cons]
    have htl : List.map _ ds = ds := ih (fun x hx => hfresh x (by simp [hx]))
    rw [htl]
    by_cases hid : d._id = sid
    · have hnotin : SpanAnn.mk t b e ∉ d.spanAnnotations := hfresh d (by simp) hid
      simp only [Function.comp_apply, hid, if_pos rfl]
      have : (d.spanAnnotations ++ [SpanAnn.mk t b e]).filter
          (fun s => !(spanMatches t b e s)) = d.spanAnnotations := by
        rw [List.filter_append, filter_not_match t b e _ hnotin]
        simp [spanMatches_self]
      simp [this]
      rw [← hid]
    · simp only [Function.comp_apply, if_neg hid]

/-- C4 witness: concrete instance of the amended round trip on
sampleDoc with a triple absent from its spanAnnotations. -/
theorem span_roundtrip_fresh_witness :
    (addSpanAnnotationM (some "u1") [sampleDoc] (JsVal.str "s1") (JsVal.str "loc")
        (JsVal.num 5) (JsVal.num 9)).bind
      (fun docs' => removeSpanAnnotationM (some "u1") docs' (JsVal.str "s1")
        (JsVal.str "loc") (JsVal.num 5) (JsVal.num 9)) = Except.ok [sampleDoc] :=
  span_roundtrip_fresh (some "u1") [sampleDoc] "s1" "loc" 5 9 (by decide)

/-- C5: sentences.remove never throws for any id, and an id matching no
document leaves the collection unchanged (in particular its size). -/
theorem remove_never_errors_and_missing_noop
    (u : Option String) (docs : List SDoc) (sid : String) :
    (∃ docs' : List SDoc, removeM u docs sid = Except.ok docs') ∧
    ((∀ d ∈ docs, d._id ≠ sid) → removeM u docs sid = Except.ok docs) := by
  refine ⟨⟨_, rfl⟩, fun h => ?_⟩
  unfold removeM
  congr 1
  apply List.filter_eq_self.mpr
  intro d hd
  simp [h d hd]

/-- C5 witness: removing an id present on no document returns the
collection unchanged. -/
theorem remove_missing_noop_witness :
    removeM (some "u1") [sampleDoc] "zz" = Except.ok [sampleDoc] :=
  (remove_never_errors_and_missing_noop (some "u1") [sampleDoc] "zz").2 (by decide)

theorem not_spanMatches_decide (t : String) (b e : Int) :
    (fun s => !(spanMatches t b e s)) =
      (fun s : SpanAnn => decide (¬ (s.type = t ∧ s.beginv = b ∧ s.endv = e))) := by
  funext s
  rcases s with ⟨st, sb, se⟩
  by_cases h1 : st = t <;> by_cases h2 : sb = b <;> by_cases h3 : se = e <;>
    simp [spanMatches, h1, h2, h3]

/-- C6: sentences.removeSpanAnnotation keeps every document in place,
touching only the one selected by _id, from whose spanAnnotations it
removes exactly the entries whose type, begin and end all equal the
given values: each matching entry ends with count 0, every other entry
keeps its multiplicity. -/
theorem removeSpan_removes_exact_matches
    (u : Option String) (docs : List SDoc) (sid t : String) (b e : Int) :
    ∃ docs' : List SDoc,
      removeSpanAnnotationM u docs (JsVal.str sid) (JsVal.str t) (JsVal.num b)
        (JsVal.num e) = Except.ok docs' ∧
      docs' = docs.map (fun d =>
        if d._id = sid then
          { d with spanAnnotations := (d.spanAnnotations.filter
              (fun s => decide (¬ (s.type = t ∧ s.beginv = b ∧ s.endv = e)))) }
        else d) ∧
      ∀ d ∈ docs, d._id = sid → ∀ s : SpanAnn,
        List.count s (d.spanAnnotations.filter
            (fun x => decide (¬ (x.type = t ∧ x.beginv = b ∧ x.endv = e)))) =
          if s.type = t ∧ s.beginv = b ∧ s.endv = e then 0
          else List.count s d.spanAnnotations := by
  refine ⟨docs.map (fun d : SDoc =>
      if d._id = sid then
        { d with spanAnnotations :=
            d.spanAnnotations.filter (fun s => !(spanMatches t b e s)) }
      else d), by rfl, ?_, ?_⟩
  · rw [not_spanMatches_decide]
  · intro d _ _ s
    by_cases hs : s.type = t ∧ s.beginv = b ∧ s.endv = e
    · rw [if_pos hs]
      apply List.count_eq_zero.mpr
      intro hmem
      have hp := List.of_mem_filter hmem
      simp [hs] at hp
    · rw [if_neg hs]
      exact List.count_filter (decide_eq_true hs)

/-- C6 witness: concrete instance on sampleDoc, whose single span
annotation ("ner", 0, 1) is removed while nothing else changes. -/
theorem removeSpan_removes_exact_matches_witness :
    ∃ docs' : List SDoc,
      removeSpanAnnotationM (some "u1") [sampleDoc] (JsVal.str "s1") (JsVal.str "ner")
        (JsVal.num 0) (JsVal.num 1) = Except.ok docs' ∧
      docs' = [sampleDoc].map (fun d =>
        if d._id = "s1" then
          { d with spanAnnotations := (d.spanAnnotations.filter
              (fun s => decide (¬ (s.type = "ner" ∧ s.beginv = 0 ∧ s.endv = 1)))) }
        else d) ∧
      ∀ d ∈ [sampleDoc], d._id = "s1" → ∀ s : SpanAnn,
        List.count s (d.spanAnnotations.filter
            (fun x => decide (¬ (x.type = "ner" ∧ x.beginv = 0 ∧ x.endv = 1)))) =
          if s.type = "ner" ∧ s.beginv = 0 ∧ s.endv = 1 then 0
          else List.count s d.spanAnnotations :=
  removeSpan_removes_exact_matches (some "u1") [sampleDoc] "s1" "ner" 0 1

/-- C7: a malformed argument of sentences.addSpanAnnotation (sentenceId
or type not a string, begin or end not a number) makes one of the four
check calls throw the type-check error before the update runs, so no
document is mutated. -/
theorem addSpan_malformed_rejected
    (u : Option String) (docs : List SDoc) (sentenceId typev beginv endv : JsVal)
    (h : asStr sentenceId = none ∨ asNum beginv = none ∨ asNum endv = none ∨
         asStr typev = none) :
    addSpanAnnotationM u docs sentenceId typev beginv endv =
      Except.error MErr.matchError := by
  rcases h with h | h | h | h
  · simp [addSpanAnnotationM, h]
  · cases h1 : asStr sentenceId <;> simp [addSpanAnnotationM, h, h1]
  · cases h1 : asStr sentenceId <;> cases h2 : asNum beginv <;>
      simp [addSpanAnnotationM, h, h1, h2]
  · cases h1 : asStr sentenceId <;> cases h2 : asNum beginv <;>
      cases h3 : asNum endv <;> simp [addSpanAnnotationM, h, h1, h2, h3]

/-- C7 witness: a non-numeric begin argument is rejected with the
type-check error. -/
theorem addSpan_malformed_rejected_witness :
    addSpanAnnotationM (some "u1") [sampleDoc] (JsVal.str "s1") (JsVal.str "ner")
      (JsVal.str "oops") (JsVal.num 1) = Except.error MErr.matchError :=
  addSpan_malformed_rejected (some "u1") [sampleDoc] (JsVal.str "s1")
    (JsVal.str "ner") (JsVal.str "oops") (JsVal.num 1) (Or.inr (Or.inl rfl))

/-- C8: sentences.importFromTsv leaves the sentences collection exactly
as it was, for every URL, filename and HTTP outcome (parsed TSV data is
never persisted), and the callback only logs the error and response
values instead of surfacing them to the caller. -/
theorem importFromTsv_never_persists
    (u : Option String) (docs : List SDoc) (url filename defaultUrl : String)
    (err resp : JsVal) (tsvParse : JsVal → JsVal) :
    (importFromTsvM u docs url filename defaultUrl err resp tsvParse).collection
        = docs ∧
    (importFromTsvM u docs url filename defaultUrl err resp tsvParse).logs
        = [err, resp, tsvParse resp] :=
  ⟨rfl, rfl⟩

/-- C10: remove, removeAnnotation, addSpanAnnotation and
removeSpanAnnotation never fail with the authorization error, whatever
the caller identity (their bodies never read this.userId); only
sentences.insert checks the caller. -/
theorem only_insert_checks_identity
    (u : Option String) (docs : List SDoc) (sid : String)
    (sidJ tJ vJ bJ eJ : JsVal) :
    removeM u docs sid ≠ Except.error MErr.notAuthorized ∧
    removeAnnotationM u docs sidJ tJ vJ ≠ Except.error MErr.notAuthorized ∧
    addSpanAnnotationM u docs sidJ tJ bJ eJ ≠ Except.error MErr.notAuthorized ∧
    removeSpanAnnotationM u docs sidJ tJ bJ eJ ≠ Except.error MErr.notAuthorized := by
  refine ⟨by simp [removeM], by simp [removeAnnotationM], ?_, ?_⟩
  · cases h1 : asStr sidJ <;> cases h2 : asNum bJ <;> cases h3 : asNum eJ <;>
      cases h4 : asStr tJ <;> simp [addSpanAnnotationM, h1, h2, h3, h4]
  · cases h1 : asStr sidJ <;> cases h2 : asNum bJ <;> cases h3 : asNum eJ <;>
      cases h4 : asStr tJ <;> simp [removeSpanAnnotationM, h1, h2, h3, h4]
